import Mathlib

/-!
Verification of the QR attendance-registration app (src/app.py): text
normalization, floor-plan overlay rendering, roster loading, record
persistence, query-parameter routing, and the cooldown / one-shot session
gates described in the design document.

Text is modelled as lists of Unicode code points (Nat).  The character
tables (lowercasing, canonical decomposition, the combining-mark category,
whitespace) are embedded for the code points this application manipulates:
ASCII plus the Latin-1 accented letters of Spanish; every other code point
is inert, which matches the behaviour of str.lower, str.strip and NFD on
the inputs the app processes.
-/

/-- Whitespace recognised by str.strip (the subset relevant here). -/
def isSpacePy (c : Nat) : Bool :=
  decide (c = 32 ∨ c = 9 ∨ c = 10 ∨ c = 11 ∨ c = 12 ∨ c = 13)

/-- str.lower on one code point: ASCII capitals and the Latin-1 accented
capitals used in Spanish move down by 32; everything else is unchanged. -/
def pyLower (c : Nat) : Nat :=
  if 65 ≤ c ∧ c ≤ 90 then c + 32
  else if c = 193 ∨ c = 201 ∨ c = 205 ∨ c = 209 ∨ c = 211 ∨ c = 218 ∨ c = 220 then c + 32
  else c

/-- str.upper on one code point (used to build case-variant spellings). -/
def pyUpper (c : Nat) : Nat :=
  if 97 ≤ c ∧ c ≤ 122 then c - 32
  else if c = 225 ∨ c = 233 ∨ c = 237 ∨ c = 241 ∨ c = 243 ∨ c = 250 ∨ c = 252 then c - 32
  else c

/-- Canonical decomposition (NFD) of one code point: the accented Spanish
letters split into base letter plus combining mark; all other code points
are NFD-stable. -/
def nfdChar (c : Nat) : List Nat :=
  if c = 225 then [97, 769]
  else if c = 233 then [101, 769]
  else if c = 237 then [105, 769]
  else if c = 243 then [111, 769]
  else if c = 250 then [117, 769]
  else if c = 241 then [110, 771]
  else if c = 252 then [117, 776]
  else if c = 193 then [65, 769]
  else if c = 201 then [69, 769]
  else if c = 205 then [73, 769]
  else if c = 211 then [79, 769]
  else if c = 218 then [85, 769]
  else if c = 209 then [78, 771]
  else if c = 220 then [85, 776]
  else [c]

/-- Unicode general category Mn: the combining diacritical marks block. -/
def isMn (c : Nat) : Bool :=
  decide (768 ≤ c ∧ c ≤ 879)

/-- Replaces an accented letter by its bare base letter (used to build
accent-variant spellings). -/
def quitarAcento (c : Nat) : Nat :=
  if c = 225 then 97
  else if c = 233 then 101
  else if c = 237 then 105
  else if c = 243 then 111
  else if c = 250 then 117
  else if c = 241 then 110
  else if c = 252 then 117
  else if c = 193 then 65
  else if c = 201 then 69
  else if c = 205 then 73
  else if c = 211 then 79
  else if c = 218 then 85
  else if c = 209 then 78
  else if c = 220 then 85
  else c

/-- str.strip: drop leading and trailing whitespace. -/
def pyStrip (s : List Nat) : List Nat :=
  ((s.dropWhile isSpacePy).reverse.dropWhile isSpacePy).reverse

/-- Body of normalizar on a non-null string, exactly as in app.py:
t = str(texto).strip().lower(), then keep the characters of NFD(t) whose
category is not Mn. -/
def normStr (s : List Nat) : List Nat :=
  ((((pyStrip s).map pyLower).map nfdChar).flatten).filter (fun c => !(isMn c))

/-- normalizar(texto): None maps to the empty string, otherwise strip,
lower, NFD and drop the combining marks. -/
def normalizar (texto : Option (List Nat)) : List Nat :=
  match texto with
  | none => []
  | some s => normStr s

/-- Output shape asserted by the spec for C4: the lowercase, mark-free form
of the text with surrounding whitespace trimmed, i.e. trimming applied to
the final result.  Stated from the words of the claim, to be compared with
normalizar (which trims before removing marks). -/
def claimNormalize (s : List Nat) : List Nat :=
  pyStrip (((s.map pyLower).map nfdChar).flatten.filter (fun c => !(isMn c)))

example : normalizar (some [120, 32, 769]) = [120, 32] := by decide
example : claimNormalize [120, 32, 769] = [120] := by decide
example : normalizar (some [32, 86, 101, 110, 116, 97, 110, 97, 115, 32]) =
    [118, 101, 110, 116, 97, 110, 97, 115] := by decide

/-! Character-level lemmas about the normalization tables. -/

lemma pyLower_out (e : Nat) (h1 : ¬(65 ≤ e ∧ e ≤ 90))
    (h2 : ¬(e = 193 ∨ e = 201 ∨ e = 205 ∨ e = 209 ∨ e = 211 ∨ e = 218 ∨ e = 220)) :
    pyLower e = e := by
  rw [pyLower, if_neg h1, if_neg h2]

lemma nfdChar_out (e : Nat)
    (h : ¬(e = 225 ∨ e = 233 ∨ e = 237 ∨ e = 243 ∨ e = 250 ∨ e = 241 ∨ e = 252 ∨
           e = 193 ∨ e = 201 ∨ e = 205 ∨ e = 211 ∨ e = 218 ∨ e = 209 ∨ e = 220)) :
    nfdChar e = [e] := by
  rw [nfdChar, if_neg (by omega : ¬e = 225), if_neg (by omega : ¬e = 233),
    if_neg (by omega : ¬e = 237), if_neg (by omega : ¬e = 243),
    if_neg (by omega : ¬e = 250), if_neg (by omega : ¬e = 241),
    if_neg (by omega : ¬e = 252), if_neg (by omega : ¬e = 193),
    if_neg (by omega : ¬e = 201), if_neg (by omega : ¬e = 205),
    if_neg (by omega : ¬e = 211), if_neg (by omega : ¬e = 218),
    if_neg (by omega : ¬e = 209), if_neg (by omega : ¬e = 220)]

lemma nfdChar_lt_193 (e : Nat) (h : e < 193) : nfdChar e = [e] :=
  nfdChar_out e (by omega)

/-- One normalization step on a single already-lowercased character:
decompose and drop the combining marks. -/
def charNorm (c : Nat) : List Nat :=
  (nfdChar c).filter (fun x => !(isMn x))

/-- A character surviving normalization is fixed by lowercasing, is its own
NFD decomposition and is not a combining mark. -/
lemma stable_of_mem_nfd_lower (e c : Nat) (hc : c ∈ nfdChar (pyLower e))
    (hmn : isMn c = false) : pyLower c = c ∧ nfdChar c = [c] := by
  by_cases h1 : 65 ≤ e ∧ e ≤ 90
  · have hp : pyLower e = e + 32 := by rw [pyLower, if_pos h1]
    rw [hp, nfdChar_lt_193 (e + 32) (by omega)] at hc
    simp only [List.mem_singleton] at hc
    subst hc
    exact ⟨pyLower_out _ (by omega) (by omega), nfdChar_lt_193 _ (by omega)⟩
  by_cases h2 : e = 193 ∨ e = 201 ∨ e = 205 ∨ e = 209 ∨ e = 211 ∨ e = 218 ∨ e = 220
  · have hp : pyLower e = e + 32 := by rw [pyLower, if_neg h1, if_pos h2]
    rw [hp] at hc
    rcases h2 with rfl | rfl | rfl | rfl | rfl | rfl | rfl <;>
      · simp only [show (193 + 32 : Nat) = 225 from rfl, show (201 + 32 : Nat) = 233 from rfl,
          show (205 + 32 : Nat) = 237 from rfl, show (209 + 32 : Nat) = 241 from rfl,
          show (211 + 32 : Nat) = 243 from rfl, show (218 + 32 : Nat) = 250 from rfl,
          show (220 + 32 : Nat) = 252 from rfl, nfdChar] at hc
        norm_num at hc
        rcases hc with rfl | rfl
        · exact ⟨by decide, by decide⟩
        · exact absurd hmn (by decide)
  · have hp : pyLower e = e := pyLower_out e h1 h2
    rw [hp] at hc
    by_cases h3 : e = 225 ∨ e = 233 ∨ e = 237 ∨ e = 243 ∨ e = 250 ∨ e = 241 ∨ e = 252
    · rcases h3 with rfl | rfl | rfl | rfl | rfl | rfl | rfl <;>
        · simp only [nfdChar] at hc
          norm_num at hc
          rcases hc with rfl | rfl
          · exact ⟨by decide, by decide⟩
          · exact absurd hmn (by decide)
    · have hn : nfdChar e = [e] := nfdChar_out e (by omega)
      rw [hn] at hc
      simp only [List.mem_singleton] at hc
      subst hc
      exact ⟨hp, hn⟩

lemma mem_normStr_stable (s : List Nat) (c : Nat) (hc : c ∈ normStr s) :
    pyLower c = c ∧ nfdChar c = [c] ∧ isMn c = false := by
  unfold normStr at hc
  rw [List.mem_filter] at hc
  obtain ⟨hmem, hq⟩ := hc
  have hmn : isMn c = false := by
    cases h : isMn c
    · rfl
    · rw [h] at hq; simp at hq
  rw [List.mem_flatten] at hmem
  obtain ⟨l, hl, hcl⟩ := hmem
  rw [List.mem_map] at hl
  obtain ⟨d, hd, rfl⟩ := hl
  rw [List.mem_map] at hd
  obtain ⟨e, _, rfl⟩ := hd
  obtain ⟨hfix, hnfd⟩ := stable_of_mem_nfd_lower e c hcl hmn
  exact ⟨hfix, hnfd, hmn⟩

/-! Lemmas about pyStrip. -/

lemma dropWhile_append_all {p : Nat → Bool} (w t : List Nat)
    (hw : ∀ c ∈ w, p c = true) :
    List.dropWhile p (w ++ t) = List.dropWhile p t := by
  induction w with
  | nil => rfl
  | cons a w ih =>
    have ha : p a = true := hw a (by simp)
    simp only [List.cons_append, List.dropWhile_cons, ha, if_true]
    exact ih (fun c hc => hw c (by simp [hc]))

lemma dropWhile_eq_nil_all {p : Nat → Bool} (w : List Nat)
    (hw : ∀ c ∈ w, p c = true) : List.dropWhile p w = [] := by
  have := dropWhile_append_all (p := p) w [] hw
  simpa using this

lemma dropWhile_append_split {p : Nat → Bool} (t w : List Nat) :
    List.dropWhile p (t ++ w) =
      if List.dropWhile p t = [] then List.dropWhile p w
      else List.dropWhile p t ++ w := by
  induction t with
  | nil => simp
  | cons a t ih =>
    simp only [List.cons_append, List.dropWhile_cons]
    cases ha : p a with
    | true => simpa [ha] using ih
    | false => simp [ha]

lemma pyStrip_append_left (w t : List Nat) (hw : ∀ c ∈ w, isSpacePy c = true) :
    pyStrip (w ++ t) = pyStrip t := by
  unfold pyStrip
  rw [dropWhile_append_all w t hw]

lemma pyStrip_append_right (t w : List Nat) (hw : ∀ c ∈ w, isSpacePy c = true) :
    pyStrip (t ++ w) = pyStrip t := by
  unfold pyStrip
  rw [dropWhile_append_split t w]
  by_cases ht : List.dropWhile isSpacePy t = []
  · rw [if_pos ht, ht]
    rw [dropWhile_eq_nil_all w hw]
  · rw [if_neg ht, List.reverse_append]
    rw [dropWhile_append_all _ _ (fun c hc => hw c (List.mem_reverse.mp hc))]

lemma mem_pyStrip {c : Nat} {s : List Nat} (h : c ∈ pyStrip s) : c ∈ s := by
  unfold pyStrip at h
  rw [List.mem_reverse] at h
  have h2 := (List.dropWhile_sublist (l := (List.dropWhile isSpacePy s).reverse) isSpacePy).mem h
  rw [List.mem_reverse] at h2
  exact (List.dropWhile_sublist (l := s) isSpacePy).mem h2

/-! Restating normStr as a per-character map, and its consequences. -/

lemma flatten_map_singleton (l : List Nat) : (l.map (fun a => [a])).flatten = l := by
  induction l with
  | nil => rfl
  | cons a l ih => simp [ih]

lemma filter_flatten (p : Nat → Bool) (L : List (List Nat)) :
    L.flatten.filter p = (L.map (List.filter p)).flatten := by
  induction L with
  | nil => rfl
  | cons l L ih => simp [List.filter_append, ih]

lemma normStr_eq_charNorm (s : List Nat) :
    normStr s = ((pyStrip s).map (fun c => charNorm (pyLower c))).flatten := by
  unfold normStr charNorm
  rw [filter_flatten, List.map_map, List.map_map]
  rfl

lemma normStr_of_stable (y : List Nat)
    (h : ∀ c ∈ y, pyLower c = c ∧ nfdChar c = [c] ∧ isMn c = false) :
    normStr y = pyStrip y := by
  rw [normStr_eq_charNorm]
  have hmap : (pyStrip y).map (fun c => charNorm (pyLower c)) =
      (pyStrip y).map (fun a => [a]) := by
    apply List.map_congr_left
    intro a ha
    obtain ⟨h1, h2, h3⟩ := h a (mem_pyStrip ha)
    simp [h1, charNorm, h2, List.filter, h3]
  rw [hmap, flatten_map_singleton]

/-- Second application of normalizar only strips whitespace again. -/
lemma normStr_normStr (s : List Nat) : normStr (normStr s) = pyStrip (normStr s) :=
  normStr_of_stable (normStr s) (fun c hc => mem_normStr_stable s c hc)

/-! Invariance of normalization under case changes, accent changes and
surrounding whitespace. -/

lemma pyUpper_out (c : Nat) (h1 : ¬(97 ≤ c ∧ c ≤ 122))
    (h2 : ¬(c = 225 ∨ c = 233 ∨ c = 237 ∨ c = 241 ∨ c = 243 ∨ c = 250 ∨ c = 252)) :
    pyUpper c = c := by
  rw [pyUpper, if_neg h1, if_neg h2]

lemma quitarAcento_out (c : Nat)
    (h : ¬(c = 225 ∨ c = 233 ∨ c = 237 ∨ c = 243 ∨ c = 250 ∨ c = 241 ∨ c = 252 ∨
           c = 193 ∨ c = 201 ∨ c = 205 ∨ c = 211 ∨ c = 218 ∨ c = 209 ∨ c = 220)) :
    quitarAcento c = c := by
  rw [quitarAcento, if_neg (by omega : ¬c = 225), if_neg (by omega : ¬c = 233),
    if_neg (by omega : ¬c = 237), if_neg (by omega : ¬c = 243),
    if_neg (by omega : ¬c = 250), if_neg (by omega : ¬c = 241),
    if_neg (by omega : ¬c = 252), if_neg (by omega : ¬c = 193),
    if_neg (by omega : ¬c = 201), if_neg (by omega : ¬c = 205),
    if_neg (by omega : ¬c = 211), if_neg (by omega : ¬c = 218),
    if_neg (by omega : ¬c = 209), if_neg (by omega : ¬c = 220)]

lemma pyLower_pyUpper (c : Nat) : pyLower (pyUpper c) = pyLower c := by
  by_cases h1 : 97 ≤ c ∧ c ≤ 122
  · have hu : pyUpper c = c - 32 := by rw [pyUpper, if_pos h1]
    have hl : pyLower (c - 32) = c - 32 + 32 := by rw [pyLower, if_pos (by omega)]
    have hr : pyLower c = c := pyLower_out c (by omega) (by omega)
    rw [hu, hl, hr]; omega
  by_cases h2 : c = 225 ∨ c = 233 ∨ c = 237 ∨ c = 241 ∨ c = 243 ∨ c = 250 ∨ c = 252
  · rcases h2 with rfl | rfl | rfl | rfl | rfl | rfl | rfl <;> decide
  · rw [pyUpper_out c h1 h2]

lemma isSpacePy_pyUpper (c : Nat) : isSpacePy (pyUpper c) = isSpacePy c := by
  by_cases h1 : 97 ≤ c ∧ c ≤ 122
  · have hu : pyUpper c = c - 32 := by rw [pyUpper, if_pos h1]
    rw [hu]
    simp only [isSpacePy, decide_eq_decide]
    omega
  by_cases h2 : c = 225 ∨ c = 233 ∨ c = 237 ∨ c = 241 ∨ c = 243 ∨ c = 250 ∨ c = 252
  · rcases h2 with rfl | rfl | rfl | rfl | rfl | rfl | rfl <;> decide
  · rw [pyUpper_out c h1 h2]

lemma isSpacePy_quitarAcento (c : Nat) : isSpacePy (quitarAcento c) = isSpacePy c := by
  by_cases h : c = 225 ∨ c = 233 ∨ c = 237 ∨ c = 243 ∨ c = 250 ∨ c = 241 ∨ c = 252 ∨
      c = 193 ∨ c = 201 ∨ c = 205 ∨ c = 211 ∨ c = 218 ∨ c = 209 ∨ c = 220
  · rcases h with rfl | rfl | rfl | rfl | rfl | rfl | rfl | rfl | rfl | rfl | rfl | rfl | rfl | rfl <;>
      decide
  · rw [quitarAcento_out c h]

lemma charNorm_pyLower_quitarAcento (c : Nat) :
    charNorm (pyLower (quitarAcento c)) = charNorm (pyLower c) := by
  by_cases h : c = 225 ∨ c = 233 ∨ c = 237 ∨ c = 243 ∨ c = 250 ∨ c = 241 ∨ c = 252 ∨
      c = 193 ∨ c = 201 ∨ c = 205 ∨ c = 211 ∨ c = 218 ∨ c = 209 ∨ c = 220
  · rcases h with rfl | rfl | rfl | rfl | rfl | rfl | rfl | rfl | rfl | rfl | rfl | rfl | rfl | rfl <;>
      decide
  · rw [quitarAcento_out c h]

lemma dropWhile_map_comm {p : Nat → Bool} {f : Nat → Nat}
    (hf : ∀ c, p (f c) = p c) (s : List Nat) :
    List.dropWhile p (s.map f) = (List.dropWhile p s).map f := by
  induction s with
  | nil => rfl
  | cons a s ih =>
    simp only [List.map_cons, List.dropWhile_cons, hf a]
    cases h : p a with
    | true => simpa [h] using ih
    | false => simp [h]

lemma pyStrip_map_comm {f : Nat → Nat} (hf : ∀ c, isSpacePy (f c) = isSpacePy c)
    (s : List Nat) : pyStrip (s.map f) = (pyStrip s).map f := by
  unfold pyStrip
  rw [dropWhile_map_comm hf, ← List.map_reverse, dropWhile_map_comm hf, List.map_reverse]

lemma normStr_map_congr {f : Nat → Nat}
    (hsp : ∀ c, isSpacePy (f c) = isSpacePy c)
    (hcn : ∀ c, charNorm (pyLower (f c)) = charNorm (pyLower c))
    (s : List Nat) : normStr (s.map f) = normStr s := by
  rw [normStr_eq_charNorm, normStr_eq_charNorm, pyStrip_map_comm hsp, List.map_map]
  congr 1
  apply List.map_congr_left
  intro a _
  exact hcn a

/-- Uppercasing a spelling does not change its normalized key. -/
lemma normStr_map_pyUpper (s : List Nat) : normStr (s.map pyUpper) = normStr s :=
  normStr_map_congr isSpacePy_pyUpper
    (fun c => by rw [pyLower_pyUpper]) s

/-- Writing a spelling without accents does not change its normalized key. -/
lemma normStr_map_quitarAcento (s : List Nat) :
    normStr (s.map quitarAcento) = normStr s :=
  normStr_map_congr isSpacePy_quitarAcento charNorm_pyLower_quitarAcento s

/-- Surrounding whitespace does not change the normalized key. -/
lemma normStr_surround (s w1 w2 : List Nat)
    (h1 : ∀ c ∈ w1, isSpacePy c = true) (h2 : ∀ c ∈ w2, isSpacePy c = true) :
    normStr (w1 ++ s ++ w2) = normStr s := by
  unfold normStr
  rw [show w1 ++ s ++ w2 = w1 ++ (s ++ w2) from by simp,
    pyStrip_append_left w1 (s ++ w2) h1, pyStrip_append_right s w2 h2]

/-- C4 (counterexample): on the input "x&#32;́" (x, space, combining acute)
normalizar keeps the trailing space that removing the mark exposes, so its
output is not whitespace-trimmed, contradicting the claimed output shape
(lowercase, marks removed, surrounding whitespace trimmed). -/
theorem normalizar_recorte_cex :
    normalizar (some [120, 32, 769]) = [120, 32] ∧
    claimNormalize [120, 32, 769] = [120] ∧
    normalizar (some [120, 32, 769]) ≠ claimNormalize [120, 32, 769] := by
  decide

/-- C4 (amended): normalizar never fails (it is total), maps null to the
empty string, and returns the trimmed-then-lowercased input with combining
marks removed afterwards; the output is lowercase and mark-free, and
spellings that differ only in surrounding whitespace, in case, or in
accents on letters normalize to the identical key.  (Trimming happens
before mark removal, so whitespace exposed by removing a mark survives.) -/
theorem normalizar_amended :
    normalizar none = [] ∧
    (∀ x c, c ∈ normalizar (some x) → isMn c = false ∧ pyLower c = c) ∧
    (∀ s w1 w2, (∀ c ∈ w1, isSpacePy c = true) → (∀ c ∈ w2, isSpacePy c = true) →
      normalizar (some (w1 ++ s ++ w2)) = normalizar (some s)) ∧
    (∀ s, normalizar (some (s.map pyUpper)) = normalizar (some s)) ∧
    (∀ s, normalizar (some (s.map quitarAcento)) = normalizar (some s)) := by
  refine ⟨rfl, ?_, ?_, ?_, ?_⟩
  · intro x c hc
    obtain ⟨h1, _, h3⟩ := mem_normStr_stable x c hc
    exact ⟨h3, h1⟩
  · intro s w1 w2 h1 h2
    exact normStr_surround s w1 w2 h1 h2
  · intro s
    exact normStr_map_pyUpper s
  · intro s
    exact normStr_map_quitarAcento s

/-- C4 (witness): the amended theorem applied at concrete inputs: the
character v of normalizar("Ven") is lowercase and no mark, and the spelling
" Ven " normalizes like "Ven". -/
theorem normalizar_amended_witness :
    (isMn 118 = false ∧ pyLower 118 = 118) ∧
    normalizar (some ([32] ++ [86, 101, 110] ++ [32])) = normalizar (some [86, 101, 110]) :=
  ⟨normalizar_amended.2.1 [86, 101, 110] 118 (by decide),
   normalizar_amended.2.2.1 [86, 101, 110] [32] [32] (by decide) (by decide)⟩

/-- C10 (counterexample): normalizar is not idempotent: on "x&#32;́" the
first application yields "x&#32;" (trailing space exposed by dropping the
mark) and the second application strips that space. -/
theorem normalizar_idempotencia_cex :
    normalizar (some [120, 32, 769]) = [120, 32] ∧
    normalizar (some (normalizar (some [120, 32, 769]))) = [120] ∧
    normalizar (some (normalizar (some [120, 32, 769]))) ≠ normalizar (some [120, 32, 769]) := by
  decide

/-- C10 (amended): a second application of normalizar coincides with merely
stripping the surrounding whitespace of the first result; hence normalizar
is idempotent exactly on the inputs whose normalized form is already
trimmed (in particular on all mark-free inputs). -/
theorem normalizar_doble (x : List Nat) :
    normalizar (some (normalizar (some x))) = pyStrip (normalizar (some x)) :=
  normStr_normStr x

/-! Lexicographic comparison of code-point strings (the order of the
Python built-in sorted on str) and an insertion sort implementing it. -/

def lexLt : List Nat → List Nat → Bool
  | _, [] => false
  | [], _ :: _ => true
  | a :: as, b :: bs => if a < b then true else if b < a then false else lexLt as bs

lemma lexLt_irrefl (l : List Nat) : lexLt l l = false := by
  induction l with
  | nil => rfl
  | cons a as ih => simp [lexLt, ih]

lemma lexLt_asymm (a : List Nat) : ∀ b, lexLt a b = true → lexLt b a = false := by
  induction a with
  | nil =>
    intro b h
    cases b with
    | nil => simp [lexLt] at h
    | cons y ys => rfl
  | cons x xs ih =>
    intro b h
    cases b with
    | nil => simp [lexLt] at h
    | cons y ys =>
      simp only [lexLt] at h ⊢
      by_cases h1 : x < y
      · rw [if_neg (by omega), if_pos h1]
      · by_cases h2 : y < x
        · rw [if_neg h1, if_pos h2] at h
          exact absurd h (by simp)
        · rw [if_neg h1, if_neg h2] at h
          rw [if_neg h2, if_neg h1]
          exact ih ys h

lemma lexLt_trans (a : List Nat) : ∀ b c, lexLt a b = true → lexLt b c = true →
    lexLt a c = true := by
  induction a with
  | nil =>
    intro b c hab hbc
    cases c with
    | nil =>
      cases b with
      | nil => exact hab
      | cons y ys => simp [lexLt] at hbc
    | cons z zs => rfl
  | cons x xs ih =>
    intro b c hab hbc
    cases b with
    | nil => simp [lexLt] at hab
    | cons y ys =>
      cases c with
      | nil => simp [lexLt] at hbc
      | cons z zs =>
        simp only [lexLt] at hab hbc ⊢
        by_cases h1 : x < y
        · by_cases h2 : y < z
          · rw [if_pos (by omega)]
          · by_cases h3 : z < y
            · rw [if_neg h2, if_pos h3] at hbc
              exact absurd hbc (by simp)
            · have : y = z := by omega
              subst this
              rw [if_pos h1]
        · by_cases h2 : y < x
          · rw [if_neg h1, if_pos h2] at hab
            exact absurd hab (by simp)
          · have hxy : x = y := by omega
            subst hxy
            rw [if_neg h1, if_neg h2] at hab
            by_cases h3 : x < z
            · rw [if_pos h3]
            · by_cases h4 : z < x
              · rw [if_neg h3, if_pos h4] at hbc
                exact absurd hbc (by simp)
              · have : x = z := by omega
                subst this
                rw [if_neg h3, if_neg h4] at hbc ⊢
                exact ih ys zs hab hbc

lemma lexLt_total (a : List Nat) : ∀ b, a ≠ b →
    lexLt a b = true ∨ lexLt b a = true := by
  induction a with
  | nil =>
    intro b hne
    cases b with
    | nil => exact absurd rfl hne
    | cons y ys => left; rfl
  | cons x xs ih =>
    intro b hne
    cases b with
    | nil => right; rfl
    | cons y ys =>
      simp only [lexLt]
      by_cases h1 : x < y
      · left; rw [if_pos h1]
      · by_cases h2 : y < x
        · right; rw [if_pos h2]
        · have hxy : x = y := by omega
          subst hxy
          have hne2 : xs ≠ ys := by
            intro h; exact hne (by rw [h])
          rcases ih ys hne2 with h | h
          · left; rw [if_neg h1, if_neg h2]; exact h
          · right; rw [if_neg h1, if_neg h2]; exact h

def insertSorted (x : List Nat) : List (List Nat) → List (List Nat)
  | [] => [x]
  | y :: ys => if lexLt x y then x :: y :: ys else y :: insertSorted x ys

/-- The Python built-in sorted on a list of strings. -/
def sortLex (l : List (List Nat)) : List (List Nat) :=
  l.foldr insertSorted []

lemma mem_insertSorted (x a : List Nat) (l : List (List Nat)) :
    a ∈ insertSorted x l ↔ a = x ∨ a ∈ l := by
  induction l with
  | nil => simp [insertSorted]
  | cons y ys ih =>
    simp only [insertSorted]
    split_ifs with h
    · simp [List.mem_cons]
    · simp only [List.mem_cons, ih]
      tauto

lemma mem_sortLex (l : List (List Nat)) (a : List Nat) :
    a ∈ sortLex l ↔ a ∈ l := by
  induction l with
  | nil => simp [sortLex]
  | cons x xs ih =>
    show a ∈ insertSorted x (sortLex xs) ↔ _
    rw [mem_insertSorted, ih]
    simp [List.mem_cons, eq_comm]

lemma pairwise_insertSorted (x : List Nat) (l : List (List Nat))
    (hx : ∀ b ∈ l, x ≠ b)
    (hl : l.Pairwise (fun a b => lexLt a b = true)) :
    (insertSorted x l).Pairwise (fun a b => lexLt a b = true) := by
  induction l with
  | nil => simp [insertSorted]
  | cons y ys ih =>
    rw [List.pairwise_cons] at hl
    obtain ⟨hy, hys⟩ := hl
    simp only [insertSorted]
    split_ifs with h
    · rw [List.pairwise_cons]
      refine ⟨?_, List.pairwise_cons.mpr ⟨hy, hys⟩⟩
      intro b hb
      rcases List.mem_cons.mp hb with rfl | hb2
      · exact h
      · exact lexLt_trans x y b h (hy b hb2)
    · have hyx : lexLt y x = true := by
        rcases lexLt_total x y (hx y (by simp)) with h1 | h1
        · exact absurd h1 h
        · exact h1
      rw [List.pairwise_cons]
      refine ⟨?_, ih (fun b hb => hx b (by simp [hb])) hys⟩
      intro b hb
      rcases (mem_insertSorted x b ys).mp hb with rfl | hb2
      · exact hyx
      · exact hy b hb2

lemma sortLex_pairwise (l : List (List Nat)) (hl : l.Nodup) :
    (sortLex l).Pairwise (fun a b => lexLt a b = true) := by
  induction l with
  | nil => simp [sortLex]
  | cons x xs ih =>
    rw [List.nodup_cons] at hl
    obtain ⟨hx, hxs⟩ := hl
    show (insertSorted x (sortLex xs)).Pairwise _
    apply pairwise_insertSorted
    · intro b hb heq
      subst heq
      exact hx ((mem_sortLex xs x).mp hb)
    · exact ih hxs

/-- In a strictly sorted list, the position of an element equals the number
of elements smaller than it. -/
lemma rango_ordenada (l : List (List Nat)) :
    l.Pairwise (fun a b => lexLt a b = true) →
    ∀ i (h : i < l.length),
    l.countP (fun nm => lexLt nm (l.get ⟨i, h⟩)) = i := by
  induction l with
  | nil => intro _ i h; simp at h
  | cons x xs ih =>
    intro hl i h
    rw [List.pairwise_cons] at hl
    obtain ⟨hx, hxs⟩ := hl
    cases i with
    | zero =>
      show List.countP (fun nm => lexLt nm x) (x :: xs) = 0
      rw [List.countP_cons, lexLt_irrefl x]
      simp only [Bool.false_eq_true, if_false, Nat.add_zero]
      rw [List.countP_eq_zero]
      intro a ha
      simp only [lexLt_asymm x a (hx a ha)]
      simp
    | succ j =>
      have hj : j < xs.length := by simpa using h
      show List.countP (fun nm => lexLt nm (xs.get ⟨j, hj⟩)) (x :: xs) = j + 1
      rw [List.countP_cons, ih hxs j hj]
      have hxj : lexLt x (xs.get ⟨j, hj⟩) = true := hx _ (List.get_mem xs j hj)
      rw [hxj]
      simp

/-! Data model of the overlay renderer (generar_heatmap). -/

/-- One attendance record row as the renderer sees it: nombre may be
missing (pandas NaN, dropped by dropna), punto is the free-text label. -/
structure Registro where
  nombre : Option (List Nat)
  punto : List Nat
deriving DecidableEq

def strVentanas : List Nat := [86, 101, 110, 116, 97, 110, 97, 115]
def strFaja2 : List Nat := [70, 97, 106, 97, 32, 50]
def strChancadoPrimario : List Nat :=
  [67, 104, 97, 110, 99, 97, 100, 111, 32, 80, 114, 105, 109, 97, 114, 105, 111]
def strChancadoSecundario : List Nat :=
  [67, 104, 97, 110, 99, 97, 100, 111, 32, 83, 101, 99, 117, 110, 100, 97, 114, 105, 111]
def strCuartoControl : List Nat := [67, 117, 97, 114, 116, 111, 32, 67, 111, 110, 116, 114, 111, 108]
def strFiltroZn : List Nat := [70, 105, 108, 116, 114, 111, 32, 90, 110]
def strFlotacionZn : List Nat := [70, 108, 111, 116, 97, 99, 105, 111, 110, 32, 90, 110]
def strFlotacionPb : List Nat := [70, 108, 111, 116, 97, 99, 105, 111, 110, 32, 80, 98]
def strTripper : List Nat := [84, 114, 105, 112, 112, 101, 114]
def strMolienda : List Nat := [77, 111, 108, 105, 101, 110, 100, 97]
def strNidoCiclones : List Nat :=
  [78, 105, 100, 111, 32, 100, 101, 32, 67, 105, 99, 108, 111, 110, 101, 115, 32, 78, 176, 51]

/-- The fixed coordinate table, keyed (as in the source) by the normalized
location name. -/
def PUNTOS_COORDS : List (List Nat × Int × Int) :=
  [(normalizar (some strVentanas), 195, 608),
   (normalizar (some strFaja2), 252, 587),
   (normalizar (some strChancadoPrimario), 300, 560),
   (normalizar (some strChancadoSecundario), 388, 533),
   (normalizar (some strCuartoControl), 435, 465),
   (normalizar (some strFiltroZn), 455, 409),
   (normalizar (some strFlotacionZn), 623, 501),
   (normalizar (some strFlotacionPb), 691, 423),
   (normalizar (some strTripper), 766, 452),
   (normalizar (some strMolienda), 802, 480),
   (normalizar (some strNidoCiclones), 811, 307)]

/-- Dictionary lookup: punto_norm in PUNTOS_COORDS / PUNTOS_COORDS[k]. -/
def coordsDe (k : List Nat) : Option (Int × Int) :=
  (PUNTOS_COORDS.find? (fun e => e.1 == k)).map (fun e => e.2)

def TODOS : List Nat := [84, 111, 100, 111, 115]

/-- The person filter at the top of generar_heatmap: filter only when a
person is selected, nonempty, and not the sentinel Todos. -/
def filtrarPersona (sel : Option (List Nat)) (df : List Registro) : List Registro :=
  match sel with
  | none => df
  | some p => if p ≠ [] ∧ p ≠ TODOS then df.filter (fun r => r.nombre == some p) else df

/-- The fixed point-mode palette (cycled by index). -/
def PALETA : List (Nat × Nat × Nat × Nat) :=
  [(255, 99, 132, 255), (54, 162, 235, 255), (75, 192, 192, 255), (255, 206, 86, 255),
   (153, 102, 255, 255), (255, 159, 64, 255), (0, 200, 83, 255), (233, 30, 99, 255)]

/-- The distinct normalized location keys of a record set.  (The group and
value-count iteration order of pandas does not affect which marks are
drawn; here the keys are listed in sorted order, as groupby yields them.) -/
def puntosNorm (df : List Registro) : List (List Nat) :=
  sortLex (df.map (fun r => normalizar (some r.punto))).dedup

/-- sorted(grupo["nombre"].dropna().unique().tolist()) for the group of
records whose normalized punto is k. -/
def nombresEn (df : List Registro) (k : List Nat) : List (List Nat) :=
  sortLex ((df.filter (fun r => normalizar (some r.punto) == k)).filterMap
    (fun r => r.nombre)).dedup

/-- One point-mode marker.  The pixel offset of the marker is the fixed
ring radius 18 at angle 2*pi*idx/total around the coordinate of punto
(floating-point trigonometry, not modelled); idx and total determine it. -/
structure Marcador where
  punto : List Nat
  nombre : List Nat
  idx : Nat
  total : Nat
  color : Nat × Nat × Nat × Nat
deriving DecidableEq

/-- Point-mode markers for one location: skip silently when the key is not
in the coordinate table, otherwise one marker per distinct person, colored
by PALETA[idx % len(PALETA)]. -/
def marcadoresEn (f : List Registro) (k : List Nat) : List Marcador :=
  match coordsDe k with
  | none => []
  | some _ =>
    (List.range (nombresEn f k).length).map (fun i =>
      { punto := k, nombre := (nombresEn f k).getD i [], idx := i,
        total := (nombresEn f k).length,
        color := PALETA.getD (i % PALETA.length) (0, 0, 0, 0) })

/-- All point-mode markers (debug=True branch of generar_heatmap). -/
def marcadoresPuntos (f : List Registro) : List Marcador :=
  ((puntosNorm f).map (fun k => marcadoresEn f k)).flatten

/-- color_por_registros(n): RGBA by record count.  The alpha value
int(130 + 120*((clamp(n)-1)/9.0)) coincides with the integer division
130 + 120*(clamp(n)-1)/9 for every clamped count 1..10, which is checked
against IEEE evaluation of the source formula. -/
def color_por_registros (n : Int) : Nat × Nat × Nat × Nat :=
  let rgb : Nat × Nat × Nat :=
    if n ≤ 1 then (80, 255, 80)
    else if n ≤ 3 then (173, 255, 47)
    else if n ≤ 5 then (255, 255, 0)
    else if n ≤ 7 then (255, 165, 0)
    else (255, 0, 0)
  let nClamped : Int := max 1 (min n 10)
  let alpha : Nat := 130 + 120 * (nClamped - 1).toNat / 9
  (rgb.1, rgb.2.1, rgb.2.2, alpha)

/-- df["punto_norm"].value_counts()[k]. -/
def conteoEn (f : List Registro) (k : List Nat) : Nat :=
  f.countP (fun r => normalizar (some r.punto) == k)

/-- One density-mode mark: a filled circle of the fixed base radius 70,
blurred by 25, colored by the record count. -/
structure MarcaCalor where
  punto : List Nat
  n : Nat
  color : Nat × Nat × Nat × Nat
  radio : Nat
  difuminado : Nat
deriving DecidableEq

/-- Density-mode marks (debug=False branch): one mark per counted key that
is present in the coordinate table. -/
def marcasCalor (f : List Registro) : List MarcaCalor :=
  (puntosNorm f).filterMap (fun k =>
    match coordsDe k with
    | none => none
    | some _ => some { punto := k, n := conteoEn f k,
                       color := color_por_registros (conteoEn f k),
                       radio := 70, difuminado := 25 })

inductive OpDibujo where
  | punto : Marcador → OpDibujo
  | calor : MarcaCalor → OpDibujo
deriving DecidableEq

/-- generar_heatmap(df, selected_person, debug), modelled as the list of
draw operations painted onto a fresh RGBA copy of the base image; the
returned image is identical to the unmodified base exactly when this list
is empty (every op paints a shape with alpha at least 130).  The function
is total: it never raises. -/
def generar_heatmap (df : List Registro) (sel : Option (List Nat)) (debug : Bool) :
    List OpDibujo :=
  let f := filtrarPersona sel df
  if f.isEmpty then []
  else if debug then (marcadoresPuntos f).map OpDibujo.punto
  else (marcasCalor f).map OpDibujo.calor

def dfC1 : List Registro :=
  [{ nombre := some [98], punto := strVentanas },
   { nombre := some [97], punto := strFaja2 },
   { nombre := some [98], punto := strFaja2 }]

example : (marcadoresPuntos dfC1).map (fun m => (m.nombre, m.color)) =
    [([97], (255, 99, 132, 255)), ([98], (54, 162, 235, 255)),
     ([98], (255, 99, 132, 255))] := by decide

/-! C1: point-mode marker colors. -/

lemma nombresEn_pairwise (f : List Registro) (k : List Nat) :
    (nombresEn f k).Pairwise (fun a b => lexLt a b = true) := by
  unfold nombresEn
  exact sortLex_pairwise _ (List.nodup_dedup _)

lemma marcador_mem_color (f : List Registro) (m : Marcador)
    (hm : m ∈ marcadoresPuntos f) :
    m.color = PALETA.getD
      ((nombresEn f m.punto).countP (fun nm => lexLt nm m.nombre) % PALETA.length)
      (0, 0, 0, 0) := by
  unfold marcadoresPuntos at hm
  rw [List.mem_flatten] at hm
  obtain ⟨L, hL, hmL⟩ := hm
  rw [List.mem_map] at hL
  obtain ⟨k, _, rfl⟩ := hL
  unfold marcadoresEn at hmL
  cases hck : coordsDe k with
  | none => rw [hck] at hmL; simp at hmL
  | some xy =>
    rw [hck] at hmL
    rw [List.mem_map] at hmL
    obtain ⟨i, hi, heq⟩ := hmL
    rw [List.mem_range] at hi
    subst heq
    simp only
    rw [List.getD_eq_get (nombresEn f k) [] hi]
    rw [rango_ordenada (nombresEn f k) (nombresEn_pairwise f k) i hi]

/-- C1 (amended): in point mode, the color of every rendered marker is the
palette entry indexed, modulo the palette size, by the rank of the person
among the alphabetically sorted distinct persons recorded at that marker
location (after the person filter); colors cycle once eight distinct
persons are exceeded.  The assignment is stable within one location but is
not a global first-seen assignment: the same person can receive different
colors at different locations (see the counterexample). -/
theorem color_marcador_generar (df : List Registro) (sel : Option (List Nat)) (m : Marcador)
    (hm : OpDibujo.punto m ∈ generar_heatmap df sel true) :
    m.color = PALETA.getD
      ((nombresEn (filtrarPersona sel df) m.punto).countP (fun nm => lexLt nm m.nombre)
        % PALETA.length) (0, 0, 0, 0) := by
  unfold generar_heatmap at hm
  by_cases hf : (filtrarPersona sel df).isEmpty
  · rw [if_pos hf] at hm
    simp at hm
  · rw [if_neg hf] at hm
    simp only [if_true] at hm
    rw [List.mem_map] at hm
    obtain ⟨a, ha, heq⟩ := hm
    cases heq
    exact marcador_mem_color (filtrarPersona sel df) m ha

/-- Marker of person b at Ventanas in the record set dfC1. -/
def marcadorVb : Marcador :=
  { punto := normalizar (some strVentanas), nombre := [98], idx := 0, total := 1,
    color := (255, 99, 132, 255) }

/-- Marker of person b at Faja 2 in the record set dfC1. -/
def marcadorFb : Marcador :=
  { punto := normalizar (some strFaja2), nombre := [98], idx := 1, total := 2,
    color := (54, 162, 235, 255) }

/-- C1 (counterexample): the color assignment is per location, not a stable
per-person first-seen assignment over the whole record set: with records
b at Ventanas, a at Faja 2, b at Faja 2, person b is rendered with palette
color 0 at Ventanas but palette color 1 at Faja 2, so the same person does
not receive the same color at every location where they appear. -/
theorem color_marcador_cex :
    OpDibujo.punto marcadorVb ∈ generar_heatmap dfC1 none true ∧
    OpDibujo.punto marcadorFb ∈ generar_heatmap dfC1 none true ∧
    marcadorVb.nombre = marcadorFb.nombre ∧
    marcadorVb.color ≠ marcadorFb.color := by
  decide

/-- C1 (witness): the amended theorem applied to the concrete marker of b
at Faja 2 in dfC1. -/
theorem color_marcador_witness :
    marcadorFb.color = PALETA.getD
      ((nombresEn (filtrarPersona none dfC1) marcadorFb.punto).countP
        (fun nm => lexLt nm marcadorFb.nombre) % PALETA.length) (0, 0, 0, 0) :=
  color_marcador_generar dfC1 none marcadorFb (by decide)

/-! C2: density-mode color scale and radius. -/

/-- The five color steps of the fixed scale, listed cold to hot. -/
def ESCALA_CALOR : List (Nat × Nat × Nat) :=
  [(80, 255, 80), (173, 255, 47), (255, 255, 0), (255, 165, 0), (255, 0, 0)]

/-- Position of the RGB part of a color on the cold-to-hot scale. -/
def calidez (c : Nat × Nat × Nat × Nat) : Nat :=
  ESCALA_CALOR.indexOf (c.1, c.2.1, c.2.2.1)

/-- Alpha channel of an RGBA color. -/
def alfaDe (c : Nat × Nat × Nat × Nat) : Nat :=
  c.2.2.2

lemma calidez_mono (a b : Int) (hab : a ≤ b) :
    calidez (color_por_registros a) ≤ calidez (color_por_registros b) := by
  simp only [color_por_registros, calidez]
  split_ifs <;> first | decide | omega

lemma alfa_mono (a b : Int) (hab : a ≤ b) :
    alfaDe (color_por_registros a) ≤ alfaDe (color_por_registros b) := by
  simp only [color_por_registros, alfaDe]
  have h1 : (max 1 (min a 10) - 1).toNat ≤ (max 1 (min b 10) - 1).toNat := by omega
  gcongr

lemma mem_puntosNorm_count (f : List Registro) (k : List Nat)
    (hk : k ∈ puntosNorm f) : 1 ≤ conteoEn f k := by
  unfold puntosNorm at hk
  rw [mem_sortLex, List.mem_dedup, List.mem_map] at hk
  obtain ⟨r, hr, hkr⟩ := hk
  unfold conteoEn
  have : 0 < f.countP (fun r => normalizar (some r.punto) == k) := by
    rw [List.countP_pos]
    exact ⟨r, hr, by simp [hkr]⟩
  omega

lemma marcasCalor_mem (f : List Registro) (mk : MarcaCalor)
    (hm : mk ∈ marcasCalor f) :
    mk.radio = 70 ∧ 1 ≤ mk.n ∧ mk.color = color_por_registros (mk.n : Int) := by
  unfold marcasCalor at hm
  rw [List.mem_filterMap] at hm
  obtain ⟨k, hk, hsome⟩ := hm
  cases hck : coordsDe k with
  | none => rw [hck] at hsome; simp at hsome
  | some xy =>
    rw [hck] at hsome
    simp only [Option.some_inj] at hsome
    subst hsome
    exact ⟨rfl, mem_puntosNorm_count f k hk, rfl⟩

/-- C2 (amended): in density mode every rendered mark is a filled circle of
the fixed radius 70 (the radius is not scaled by the count), colored by
color_por_registros of the count of matching records (at least one); on the
fixed scale a larger count yields a color at least as hot (green toward
red) and an alpha at least as opaque, and for the counts 1 and 10 in
particular the colors are green (80,255,80) at alpha 130 and red (255,0,0)
at alpha 250, with strictly hotter scale position. -/
theorem calor_amended :
    (∀ df sel mk, OpDibujo.calor mk ∈ generar_heatmap df sel false →
      mk.radio = 70 ∧ 1 ≤ mk.n ∧ mk.color = color_por_registros (mk.n : Int)) ∧
    (∀ a b : Int, a ≤ b → calidez (color_por_registros a) ≤ calidez (color_por_registros b) ∧
      alfaDe (color_por_registros a) ≤ alfaDe (color_por_registros b)) ∧
    color_por_registros 1 = (80, 255, 80, 130) ∧
    color_por_registros 10 = (255, 0, 0, 250) ∧
    calidez (color_por_registros 1) < calidez (color_por_registros 10) := by
  refine ⟨?_, ?_, by decide, by decide, by decide⟩
  · intro df sel mk hm
    unfold generar_heatmap at hm
    by_cases hf : (filtrarPersona sel df).isEmpty
    · rw [if_pos hf] at hm
      simp at hm
    · rw [if_neg hf] at hm
      simp only [Bool.false_eq_true, if_false] at hm
      rw [List.mem_map] at hm
      obtain ⟨a, ha, heq⟩ := hm
      cases heq
      exact marcasCalor_mem (filtrarPersona sel df) mk ha
  · intro a b hab
    exact ⟨calidez_mono a b hab, alfa_mono a b hab⟩

/-- Record set with one record at Ventanas and ten records at Faja 2. -/
def dfC2 : List Registro :=
  { nombre := some [97], punto := strVentanas } ::
    List.replicate 10 { nombre := some [97], punto := strFaja2 }

/-- The density mark at Faja 2 (count 10) in dfC2. -/
def marcaF10 : MarcaCalor :=
  { punto := normalizar (some strFaja2), n := 10, color := (255, 0, 0, 250),
    radio := 70, difuminado := 25 }

/-- The density mark at Ventanas (count 1) in dfC2. -/
def marcaV1 : MarcaCalor :=
  { punto := normalizar (some strVentanas), n := 1, color := (80, 255, 80, 130),
    radio := 70, difuminado := 25 }

/-- C2 (counterexample): with counts 1 (Ventanas) and 10 (Faja 2) the
count-10 mark gets the hotter color but not a larger radius: both circles
have the fixed radius 70, contradicting the claimed radius scaling. -/
theorem calor_radio_cex :
    OpDibujo.calor marcaF10 ∈ generar_heatmap dfC2 none false ∧
    OpDibujo.calor marcaV1 ∈ generar_heatmap dfC2 none false ∧
    marcaF10.n = 10 ∧ marcaV1.n = 1 ∧
    ¬ marcaV1.radio < marcaF10.radio := by
  decide

/-- C2 (witness): the amended theorem applied to the concrete mark of
count 10 at Faja 2 in dfC2 and to the counts 1 and 10. -/
theorem calor_amended_witness :
    (marcaF10.radio = 70 ∧ 1 ≤ marcaF10.n ∧
      marcaF10.color = color_por_registros (marcaF10.n : Int)) ∧
    (calidez (color_por_registros 1) ≤ calidez (color_por_registros 10) ∧
      alfaDe (color_por_registros 1) ≤ alfaDe (color_por_registros 10)) :=
  ⟨calor_amended.1 dfC2 none marcaF10 (by decide),
   calor_amended.2.1 1 10 (by decide)⟩

/-! C3: rendering is total, empty input yields the untouched base image,
unknown location keys are skipped silently. -/

/-- The normalized location key an operation is drawn at. -/
def claveDe : OpDibujo → List Nat
  | .punto m => m.punto
  | .calor mk => mk.punto

lemma filtrarPersona_nil (sel : Option (List Nat)) : filtrarPersona sel [] = [] := by
  cases sel with
  | none => rfl
  | some p =>
    show (if p ≠ [] ∧ p ≠ TODOS then List.filter (fun r => r.nombre == some p) [] else []) = []
    split_ifs <;> rfl

lemma mem_puntosNorm_of_key (f : List Registro) (k : List Nat)
    (hk : k ∈ puntosNorm f) : ∃ r ∈ f, normalizar (some r.punto) = k := by
  unfold puntosNorm at hk
  rw [mem_sortLex, List.mem_dedup, List.mem_map] at hk
  exact hk

lemma marcador_mem_coords (f : List Registro) (m : Marcador)
    (hm : m ∈ marcadoresPuntos f) : coordsDe m.punto ≠ none := by
  unfold marcadoresPuntos at hm
  rw [List.mem_flatten] at hm
  obtain ⟨L, hL, hmL⟩ := hm
  rw [List.mem_map] at hL
  obtain ⟨k, _, rfl⟩ := hL
  unfold marcadoresEn at hmL
  cases hck : coordsDe k with
  | none => rw [hck] at hmL; simp at hmL
  | some xy =>
    rw [hck] at hmL
    rw [List.mem_map] at hmL
    obtain ⟨i, _, heq⟩ := hmL
    subst heq
    simp [hck]

lemma marcaCalor_mem_coords (f : List Registro) (mk : MarcaCalor)
    (hm : mk ∈ marcasCalor f) : coordsDe mk.punto ≠ none := by
  unfold marcasCalor at hm
  rw [List.mem_filterMap] at hm
  obtain ⟨k, _, hsome⟩ := hm
  cases hck : coordsDe k with
  | none => rw [hck] at hsome; simp at hsome
  | some xy =>
    rw [hck] at hsome
    simp only [Option.some_inj] at hsome
    subst hsome
    simp [hck]

lemma marcadoresPuntos_all_unknown (f : List Registro)
    (h : ∀ r ∈ f, coordsDe (normalizar (some r.punto)) = none) :
    marcadoresPuntos f = [] := by
  unfold marcadoresPuntos
  rw [List.flatten_eq_nil_iff]
  intro l hl
  rw [List.mem_map] at hl
  obtain ⟨k, hk, rfl⟩ := hl
  obtain ⟨r, hr, rfl⟩ := mem_puntosNorm_of_key f k hk
  unfold marcadoresEn
  rw [h r hr]

lemma marcasCalor_all_unknown (f : List Registro)
    (h : ∀ r ∈ f, coordsDe (normalizar (some r.punto)) = none) :
    marcasCalor f = [] := by
  unfold marcasCalor
  rw [List.filterMap_eq_nil_iff]
  intro k hk
  obtain ⟨r, hr, rfl⟩ := mem_puntosNorm_of_key f k hk
  rw [h r hr]

/-- C3 (confirmed): the renderer is a total function (it never raises); if
the record set is empty, or the person filter leaves it empty, no draw
operation is produced, so the result image is the untouched copy of the
base; every operation that is drawn carries a location key present in the
coordinate table, and when every record has an unknown key nothing at all
is drawn: unknown keys are skipped silently instead of raising. -/
theorem render_nunca_falla :
    (∀ df sel debug, filtrarPersona sel df = [] → generar_heatmap df sel debug = []) ∧
    (∀ sel debug, generar_heatmap [] sel debug = []) ∧
    (∀ df sel debug op, op ∈ generar_heatmap df sel debug → coordsDe (claveDe op) ≠ none) ∧
    (∀ df sel debug,
      (∀ r ∈ filtrarPersona sel df, coordsDe (normalizar (some r.punto)) = none) →
      generar_heatmap df sel debug = []) := by
  have hempty : ∀ df sel debug, filtrarPersona sel df = [] →
      generar_heatmap df sel debug = [] := by
    intro df sel debug h
    unfold generar_heatmap
    rw [if_pos (List.isEmpty_iff.mpr h)]
  refine ⟨hempty, ?_, ?_, ?_⟩
  · intro sel debug
    exact hempty [] sel debug (filtrarPersona_nil sel)
  · intro df sel debug op hop
    unfold generar_heatmap at hop
    by_cases hf : (filtrarPersona sel df).isEmpty
    · rw [if_pos hf] at hop
      simp at hop
    · rw [if_neg hf] at hop
      cases debug with
      | true =>
        simp only [if_true] at hop
        rw [List.mem_map] at hop
        obtain ⟨m, hm, heq⟩ := hop
        subst heq
        exact marcador_mem_coords _ m hm
      | false =>
        simp only [Bool.false_eq_true, if_false] at hop
        rw [List.mem_map] at hop
        obtain ⟨mk, hm, heq⟩ := hop
        subst heq
        exact marcaCalor_mem_coords _ mk hm
  · intro df sel debug h
    unfold generar_heatmap
    by_cases hf : (filtrarPersona sel df).isEmpty
    · rw [if_pos hf]
    · rw [if_neg hf]
      cases debug with
      | true =>
        simp only [if_true]
        rw [marcadoresPuntos_all_unknown _ h]
        rfl
      | false =>
        simp only [Bool.false_eq_true, if_false]
        rw [marcasCalor_all_unknown _ h]
        rfl

/-- C3 (witness): the theorem applied at concrete inputs: the person filter
for a leaves the single record of b empty, so nothing is drawn; and a lone
record at the unknown location z draws nothing either. -/
theorem render_nunca_falla_witness :
    generar_heatmap [{ nombre := some [98], punto := strVentanas }] (some [97]) true = [] ∧
    generar_heatmap [{ nombre := some [97], punto := [122] }] none false = [] :=
  ⟨render_nunca_falla.1 [{ nombre := some [98], punto := strVentanas }] (some [97]) true
      (by decide),
   render_nunca_falla.2.2.2 [{ nombre := some [97], punto := [122] }] none false
      (by decide)⟩

/-! C7: guardar_registro appends locally, then replicates best-effort. -/

/-- One persisted record row with its derived date and time strings. -/
structure Fila where
  timestamp : List Nat
  fecha : List Nat
  hora : List Nat
  nombre : List Nat
  punto : List Nat
deriving DecidableEq

/-- Outcome of guardar_registro: the rewritten local file and whether the
replication warning was printed.  The function returns normally in every
case; failure is never re-raised. -/
structure ResultadoGuardar where
  archivo : List Fila
  advertencia : Bool
deriving DecidableEq

/-- guardar_registro(nombre, punto): reload the local file, append the row
derived from the current local time (the three strftime strings are inputs
here), rewrite the file, and then try the remote append; an exception from
the remote call is caught and reported as a warning only.  The remote
outcome is passed as an Except value mirroring the try/except. -/
def guardar_registro (archivo : List Fila) (ts fecha hora nombre punto : List Nat)
    (remoto : Except (List Nat) Unit) : ResultadoGuardar :=
  let df := archivo ++ [{ timestamp := ts, fecha := fecha, hora := hora,
                          nombre := nombre, punto := punto }]
  match remoto with
  | .ok _ => { archivo := df, advertencia := false }
  | .error _ => { archivo := df, advertencia := true }

/-- C7 (confirmed): the local append precedes the replication attempt and
is never blocked, undone, or turned into an error by a replication
failure: whatever the remote outcome, the resulting file is the old file
plus exactly the new row, a failure produces only a warning, and the file
contents after a failure equal the file contents after a success. -/
theorem guardar_registro_best_effort (archivo : List Fila)
    (ts fecha hora nombre punto e : List Nat) :
    (guardar_registro archivo ts fecha hora nombre punto (.error e)).archivo =
      archivo ++ [{ timestamp := ts, fecha := fecha, hora := hora,
                    nombre := nombre, punto := punto }] ∧
    (guardar_registro archivo ts fecha hora nombre punto (.error e)).advertencia = true ∧
    (guardar_registro archivo ts fecha hora nombre punto (.ok ())).advertencia = false ∧
    (guardar_registro archivo ts fecha hora nombre punto (.error e)).archivo =
      (guardar_registro archivo ts fecha hora nombre punto (.ok ())).archivo :=
  ⟨rfl, rfl, rfl, rfl⟩

/-! C8: cargar_personas and the active flag. -/

/-- One row of the roster file: either cell may be empty (pandas NaN). -/
structure FilaPersona where
  nombre : Option (List Nat)
  activo : Option Int
deriving DecidableEq

/-- The parsed roster file: its rows plus which columns are present. -/
structure Planilla where
  filas : List FilaPersona
  tieneNombre : Bool
  tieneActivo : Bool
deriving DecidableEq

/-- An eligible person after loading. -/
structure Persona where
  nombre : List Nat
  activo : Int
deriving DecidableEq

/-- str(nan), the name astype(str) gives an empty cell. -/
def NAN_STR : List Nat := [110, 97, 110]

/-- cargar_personas(): a missing file yields the empty frame; otherwise a
missing nombre column is created empty, a present activo column has its
missing values filled with 0 (fillna(0)), an absent activo column defaults
every row to 1, names are str-converted and stripped, and only rows with
activo == 1 are kept. -/
def personaDe (pl : Planilla) (f : FilaPersona) : Persona :=
  { nombre :=
      if pl.tieneNombre then
        match f.nombre with
        | some s => pyStrip s
        | none => NAN_STR
      else [],
    activo :=
      if pl.tieneActivo then
        match f.activo with
        | some v => v
        | none => 0
      else 1 }

def cargar_personas (archivo : Option Planilla) : List Persona :=
  match archivo with
  | none => []
  | some pl => (pl.filas.map (personaDe pl)).filter (fun q => q.activo == 1)

lemma cargar_personas_some (pl : Planilla) :
    cargar_personas (some pl) =
      (pl.filas.map (personaDe pl)).filter (fun q => q.activo == 1) := rfl

/-- The roster of the counterexample: the activo column is present, the
row of a has activo 1 and the row of b has an empty activo cell. -/
def planillaC8 : Planilla :=
  { filas := [{ nombre := some [97], activo := some 1 },
              { nombre := some [98], activo := none }],
    tieneNombre := true, tieneActivo := true }

/-- C8 (counterexample): a row with no activo value is not eligible when
the activo column is present: fillna(0) turns the empty cell into 0, so b
is filtered out and only a is loaded, contradicting the claim that an
absent activo value defaults to 1. -/
theorem cargar_personas_default_cex :
    cargar_personas (some planillaC8) = [{ nombre := [97], activo := 1 }] ∧
    { nombre := some [98], activo := none } ∈ planillaC8.filas ∧
    (cargar_personas (some planillaC8)).filter (fun q => q.nombre == [98]) = [] := by
  decide

/-- C8 (amended): only rows whose effective active flag equals 1 are
eligible; the flag defaults to 1 only when the activo column is absent
altogether (then every row is eligible), while a missing value in a
present activo column is filled with 0 and the row is not eligible; a
missing roster file loads nobody. -/
theorem cargar_personas_amended :
    (∀ pl q, q ∈ cargar_personas (some pl) → q.activo = 1) ∧
    (∀ pl, pl.tieneActivo = false →
      (cargar_personas (some pl)).length = pl.filas.length) ∧
    (∀ pl, pl.tieneActivo = true →
      (cargar_personas (some pl)).length =
        pl.filas.countP (fun f => (match f.activo with
          | some v => v
          | none => 0) == 1)) ∧
    cargar_personas none = [] := by
  refine ⟨?_, ?_, ?_, rfl⟩
  · intro pl q hq
    rw [cargar_personas_some, List.mem_filter] at hq
    have := hq.2
    simpa using this
  · intro pl h
    rw [cargar_personas_some, List.filter_eq_self.mpr, List.length_map]
    intro q hq
    rw [List.mem_map] at hq
    obtain ⟨f, _, rfl⟩ := hq
    simp [personaDe, h]
  · intro pl h
    rw [cargar_personas_some, ← List.countP_eq_length_filter, List.countP_map]
    apply List.countP_congr
    intro f _
    simp [Function.comp, personaDe, h]

/-- C8 (witness): the amended theorem applied to the concrete roster of
the counterexample: the loaded person a is active, and with the activo
column present the loaded count equals the count of rows whose filled
activo value is 1. -/
theorem cargar_personas_amended_witness :
    ({ nombre := [97], activo := 1 } : Persona).activo = 1 ∧
    (cargar_personas (some planillaC8)).length =
      planillaC8.filas.countP (fun f => (match f.activo with
        | some v => v
        | none => 0) == 1) :=
  ⟨cargar_personas_amended.1 planillaC8 { nombre := [97], activo := 1 } (by decide),
   cargar_personas_amended.2.2.1 planillaC8 rfl⟩

/-! C9: URL query parameter defaults and routing. -/

def SIN_PUNTO : List Nat := [83, 73, 78, 95, 80, 85, 78, 84, 79]
def UNSPECIFIED : List Nat := [117, 110, 115, 112, 101, 99, 105, 102, 105, 101, 100]
def MODO_REGISTRO : List Nat := [114, 101, 103, 105, 115, 116, 114, 111]
def MODO_PANEL : List Nat := [112, 97, 110, 101, 108]
def CLAVE_MODO : List Nat := [109, 111, 100, 111]
def CLAVE_PUNTO : List Nat := [112, 117, 110, 116, 111]

/-- st.query_params.get(clave, defecto). -/
def obtenerParam (params : List (List Nat × List Nat)) (clave defecto : List Nat) :
    List Nat :=
  match (params.find? (fun e => e.1 == clave)).map (fun e => e.2) with
  | some v => v
  | none => defecto

/-- The location label read in vista_registro. -/
def puntoDeURL (params : List (List Nat × List Nat)) : List Nat :=
  obtenerParam params CLAVE_PUNTO SIN_PUNTO

/-- The mode read in main. -/
def modoDeURL (params : List (List Nat × List Nat)) : List Nat :=
  obtenerParam params CLAVE_MODO MODO_REGISTRO

inductive Vista where
  | registro : Vista
  | panel : Vista
deriving DecidableEq

/-- The routing in main: the dashboard only when modo == "panel",
otherwise the registration view. -/
def rutaPrincipal (params : List (List Nat × List Nat)) : Vista :=
  if modoDeURL params == MODO_PANEL then .panel else .registro

/-- C9 (counterexample): with no query parameters the location label
defaults to the sentinel SIN_PUNTO, which is not the string
"unspecified" the claim names. -/
theorem parametros_defecto_cex :
    puntoDeURL [] = SIN_PUNTO ∧ SIN_PUNTO ≠ UNSPECIFIED := by
  decide

/-- C9 (amended): with no query parameters the location label defaults to
the sentinel "SIN_PUNTO" (the Spanish placeholder for an unspecified
point, not the literal "unspecified") and the mode defaults to
"registro", routing to the registration form; the dashboard is shown
exactly when the mode selector equals "panel". -/
theorem parametros_defecto_amended :
    puntoDeURL [] = SIN_PUNTO ∧
    modoDeURL [] = MODO_REGISTRO ∧
    rutaPrincipal [] = .registro ∧
    (∀ params, rutaPrincipal params = .panel → modoDeURL params = MODO_PANEL) ∧
    (∀ params, modoDeURL params = MODO_PANEL → rutaPrincipal params = .panel) := by
  refine ⟨rfl, rfl, rfl, ?_, ?_⟩
  · intro params h
    unfold rutaPrincipal at h
    by_cases hm : modoDeURL params == MODO_PANEL
    · simpa using hm
    · rw [if_neg (by simpa using hm)] at h
      cases h
  · intro params h
    unfold rutaPrincipal
    rw [if_pos (by simpa using h)]

/-- C9 (witness): the amended theorem applied to the concrete parameter
list mapping modo to panel. -/
theorem parametros_defecto_witness :
    modoDeURL [(CLAVE_MODO, MODO_PANEL)] = MODO_PANEL ∧
    rutaPrincipal [(CLAVE_MODO, MODO_PANEL)] = .panel :=
  ⟨parametros_defecto_amended.2.2.2.1 [(CLAVE_MODO, MODO_PANEL)] (by decide),
   parametros_defecto_amended.2.2.2.2 [(CLAVE_MODO, MODO_PANEL)] (by decide)⟩

/-! C5: the cooldown gate. -/

/-- One attendance record as the gate sees it: the person and the record
time, in minutes on a common clock. -/
structure RegistroT where
  nombre : List Nat
  minuto : Nat
deriving DecidableEq

/-- Time of the most recent record of the person, none when the person has
no record. -/
def ultimaMarca (recs : List RegistroT) (p : List Nat) : Option Nat :=
  (recs.filter (fun r => r.nombre == p)).foldl
    (fun acc r => match acc with
      | none => some r.minuto
      | some t => some (max t r.minuto)) none

inductive Decision where
  | permitido : Decision
  | denegado : Nat → Decision
deriving DecidableEq

/-- Modelled from the spec: the cooldown gate can_register(person,
window_minutes) of section 4.4 is not present in src/app.py (the included
revision guards registration only with the two-minute page expiry), so it
is modelled from the words of the spec: inspect the most recent record of
the person; deny with the remaining wait when the elapsed time since it is
less than window_minutes, allow otherwise; a person with no record is
always allowed. -/
def can_register (recs : List RegistroT) (p : List Nat) (window ahora : Nat) : Decision :=
  match ultimaMarca recs p with
  | none => .permitido
  | some t => if ahora - t < window then .denegado (window - (ahora - t)) else .permitido

/-- C5 (confirmed, against the spec model): a person with no record is
always allowed; with a most recent record at time t, the gate denies with
the remaining wait exactly when the elapsed time is strictly below the
window, allows once the window is reached, and in particular allows at an
elapsed time of exactly the window. -/
theorem can_register_ventana (recs : List RegistroT) (p : List Nat) (window ahora : Nat) :
    (ultimaMarca recs p = none → can_register recs p window ahora = .permitido) ∧
    (∀ t, ultimaMarca recs p = some t →
      (ahora - t < window →
        can_register recs p window ahora = .denegado (window - (ahora - t))) ∧
      (window ≤ ahora - t → can_register recs p window ahora = .permitido) ∧
      (ahora - t = window → can_register recs p window ahora = .permitido)) := by
  constructor
  · intro h
    unfold can_register
    rw [h]
  · intro t ht
    refine ⟨?_, ?_, ?_⟩
    · intro hlt
      unfold can_register
      rw [ht]
      show (if ahora - t < window then Decision.denegado (window - (ahora - t))
        else Decision.permitido) = _
      rw [if_pos hlt]
    · intro hge
      unfold can_register
      rw [ht]
      show (if ahora - t < window then Decision.denegado (window - (ahora - t))
        else Decision.permitido) = _
      rw [if_neg (by omega)]
    · intro heq
      unfold can_register
      rw [ht]
      show (if ahora - t < window then Decision.denegado (window - (ahora - t))
        else Decision.permitido) = _
      rw [if_neg (by omega)]

/-- C5 (witness): the gate applied to one record of a at minute 0: at
minute 3 with a five-minute window it denies with two minutes left, and at
exactly minute 5 it allows. -/
theorem can_register_ventana_witness :
    can_register [{ nombre := [97], minuto := 0 }] [97] 5 3 = .denegado 2 ∧
    can_register [{ nombre := [97], minuto := 0 }] [97] 5 5 = .permitido ∧
    can_register [] [98] 5 0 = .permitido :=
  ⟨((can_register_ventana [{ nombre := [97], minuto := 0 }] [97] 5 3).2 0
      (by decide)).1 (by decide),
   ((can_register_ventana [{ nombre := [97], minuto := 0 }] [97] 5 5).2 0
      (by decide)).2.2 (by decide),
   (can_register_ventana [] [98] 5 0).1 (by decide)⟩

/-! C6: the one-shot session flag. -/

/-- Modelled from the spec: the process-local one-shot session flag of
section 4.4 is not present in src/app.py (the included revision expires
the page after two minutes instead), so the session gate is modelled from
the words of the spec: a per-session flag set by a successful
registration. -/
structure Sesion where
  usado : Bool
deriving DecidableEq

inductive Accion where
  | render : Accion
  | registrar : List Nat → Accion
deriving DecidableEq

inductive Salida where
  | formulario : Salida
  | yaUsado : Salida
  | exito : List Nat → Salida
deriving DecidableEq

/-- One interaction with the registration view: rendering shows the
terminal already-used message once the flag is set, and a registration
succeeds only while the flag is unset, setting it. -/
def pasoSesion (s : Sesion) (a : Accion) : Salida × Sesion :=
  match a with
  | .render => if s.usado then (.yaUsado, s) else (.formulario, s)
  | .registrar n => if s.usado then (.yaUsado, s) else (.exito n, { usado := true })

/-- The outputs of a whole session, interaction by interaction. -/
def trazaSesion (s : Sesion) : List Accion → List Salida
  | [] => []
  | a :: as => (pasoSesion s a).1 :: trazaSesion (pasoSesion s a).2 as

lemma pasoSesion_usado (s : Sesion) (hu : s.usado = true) (a : Accion) :
    pasoSesion s a = (.yaUsado, s) := by
  cases a with
  | render =>
    show (if s.usado = true then (Salida.yaUsado, s) else (Salida.formulario, s)) =
      (Salida.yaUsado, s)
    rw [if_pos hu]
  | registrar n =>
    show (if s.usado = true then (Salida.yaUsado, s)
      else (Salida.exito n, ({ usado := true } : Sesion))) = (Salida.yaUsado, s)
    rw [if_pos hu]

/-- C6 (confirmed, against the spec model): a successful registration sets
the session flag, and once the flag is set every later interaction of that
session, render or registration attempt alike, produces only the terminal
already-used message: no further registration can succeed. -/
theorem sesion_un_solo_uso :
    (∀ s n o s2, pasoSesion s (.registrar n) = (o, s2) → o = .exito n →
      s2.usado = true) ∧
    (∀ s, s.usado = true → ∀ acciones o, o ∈ trazaSesion s acciones → o = .yaUsado) := by
  constructor
  · intro s n o s2 hp ho
    cases hu : s.usado with
    | true =>
      rw [pasoSesion_usado s hu] at hp
      cases hp
      cases ho
    | false =>
      unfold pasoSesion at hp
      rw [hu] at hp
      simp only [Bool.false_eq_true, if_false] at hp
      cases hp
      rfl
  · intro s hu acciones
    induction acciones generalizing s with
    | nil => intro o ho; simp [trazaSesion] at ho
    | cons a as ih =>
      intro o ho
      unfold trazaSesion at ho
      rw [pasoSesion_usado s hu a] at ho
      rcases List.mem_cons.mp ho with rfl | ho2
      · rfl
      · exact ih s hu o ho2

/-- C6 (witness): the theorem applied to a concrete session: registering a
succeeds and sets the flag, after which a render and another registration
attempt both show only the already-used message. -/
theorem sesion_un_solo_uso_witness :
    ({ usado := true } : Sesion).usado = true ∧
    Salida.yaUsado = Salida.yaUsado :=
  ⟨sesion_un_solo_uso.1 { usado := false } [97] (.exito [97]) { usado := true }
      (by decide) rfl,
   sesion_un_solo_uso.2 { usado := true } rfl [.render, .registrar [98]] .yaUsado
      (by decide)⟩
